import Mathlib

/-!
Verification of the sampling-grid generation and geospatial feature codec of
the `connectfarm_krig` server (`src/server.js`).

The development has two parts.

Part 1 is a byte-exact, computable model (over `ℚ` and `ℕ`) of the binary
vector codec: `createShapefileBuffer`, `createSHXBuffer` and `createDBFBuffer`
(server.js lines 748-947).  Node.js `Buffer` semantics are modelled
faithfully: `Buffer.alloc` zero-fills, the numeric `write*` methods throw
`ERR_OUT_OF_RANGE` when the write does not fit (modelled with `Except`),
`buf.write(string, offset, length)` clamps the written bytes to the buffer
end, and `Buffer.concat` appends.  IEEE-754 doubles are modelled as exact
rationals stored in typed write slots.

Part 2 is a model over `ℝ` of the geometry core: `calculateArea`
(lines 112-121), `generateGrid` (lines 124-195), `intersectsPolygon`
(lines 198-213) and `pointInPolygon` (lines 216-233).  JavaScript `for`
loops with a real-valued bound are modelled by `jsLoopCount`: the result is
`none` when the bound is `Infinity` (`diff / 0` with `diff > 0`), i.e. when
the loop never terminates.
-/

namespace ConnectFarm

/-! ### Part 1a: Node byte-buffer model (used by the DBF encoder) -/

/-- Model of a Node byte buffer as its list of byte values; `Buffer.alloc n`
zero-fills. -/
def bufAlloc (n : ℕ) : List ℕ := List.replicate n 0

/-- Model of `buf.writeUInt8(v, off)`.  Node throws `ERR_OUT_OF_RANGE` unless
`0 ≤ off ≤ buf.length - 1`. -/
def writeUInt8 (buf : List ℕ) (v off : ℕ) : Except String (List ℕ) :=
  if off < buf.length then .ok (buf.set off (v % 256)) else .error "ERR_OUT_OF_RANGE"

/-- Model of `buf.writeUInt16LE(v, off)`: two little-endian bytes, bounds
checked. -/
def writeUInt16LE (buf : List ℕ) (v off : ℕ) : Except String (List ℕ) :=
  if off + 2 ≤ buf.length then
    .ok ((buf.set off (v % 256)).set (off + 1) (v / 256 % 256))
  else .error "ERR_OUT_OF_RANGE"

/-- Model of `buf.writeUInt32LE(v, off)`: four little-endian bytes, bounds
checked. -/
def writeUInt32LE (buf : List ℕ) (v off : ℕ) : Except String (List ℕ) :=
  if off + 4 ≤ buf.length then
    .ok (((((buf.set off (v % 256)).set (off + 1) (v / 256 % 256)).set
      (off + 2) (v / 65536 % 256)).set (off + 3) (v / 16777216 % 256)))
  else .error "ERR_OUT_OF_RANGE"

/-- Model of `buf.write(s, off, len, ascii)`: writes at most `len` bytes of
the string, clamped so that the written bytes do not exceed the buffer end
(Node clamps here instead of throwing). -/
def bufWriteAscii (buf : List ℕ) (s : String) (off len : ℕ) : List ℕ :=
  let bytes := (s.data.map Char.toNat).take (min len (buf.length - off))
  buf.take off ++ bytes ++ buf.drop (off + bytes.length)

/-- Model of `String.prototype.padStart(n, c)`. -/
def padStartStr (s : String) (n : ℕ) (c : Char) : String :=
  ⟨List.replicate (n - s.data.length) c⟩ ++ s

/-- Model of `String.prototype.padEnd(n, c)`. -/
def padEndStr (s : String) (n : ℕ) (c : Char) : String :=
  s ++ ⟨List.replicate (n - s.data.length) c⟩

/-- Decimal rendering of a JavaScript number (`Number.prototype.toString`),
exact for values whose reduced denominator divides 10^20, which covers every
value appearing in this development. -/
def jsNumToString (q : ℚ) : String :=
  if q.den = 1 then toString q.num
  else
    let n : ℕ := q.num.natAbs * 10 ^ 20 / q.den
    let ipart := n / 10 ^ 20
    let fdigits : String := padStartStr (toString (n % 10 ^ 20)) 20 '0'
    let fdigits : String := ⟨(fdigits.data.reverse.dropWhile (· = '0')).reverse⟩
    (if q.num < 0 then "-" else "") ++ toString ipart ++ "." ++ fdigits

/-- Model of `Number.prototype.toFixed(6)` on an exact rational value: round
to six fractional digits and render with exactly six digits after the
decimal point.  The rounded numerator `round(|q| * 10^6)` is computed in `ℕ`
as `(2 * |q.num| * 10^6 + q.den) / (2 * q.den)`, which equals
`floor(|q| * 10^6 + 1/2)`. -/
def jsToFixed6 (q : ℚ) : String :=
  let n : ℕ := (2 * q.num.natAbs * 1000000 + q.den) / (2 * q.den)
  (if q.num < 0 then "-" else "") ++ toString (n / 1000000) ++ "." ++
    padStartStr (toString (n % 1000000)) 6 '0'

/-! ### Part 1b: feature model -/

/-- Geometry of a GeoJSON feature handled by the codec: a point
`coordinates = [x, y] = [lng, lat]` or a polygon outer ring of
`[lng, lat]` pairs. -/
inductive Geometry where
  | point (x y : ℚ)
  | polygon (ring : List (ℚ × ℚ))
deriving DecidableEq

/-- Numeric feature properties used by the DBF encoder
(`feature.properties.{id, gridSize, latitude, longitude}`). -/
structure FeatureProps where
  id : ℚ
  gridSize : ℚ
  latitude : ℚ
  longitude : ℚ
deriving DecidableEq

/-- Model of one GeoJSON feature. -/
structure Feature where
  props : FeatureProps
  geom : Geometry
deriving DecidableEq

/-- First coordinate of the geometry: `feature.geometry.coordinates[0]` for
a point (for a polygon the fallback is never taken by the claims). -/
def geomX : Geometry → ℚ
  | .point x _ => x
  | .polygon r => (r.headI).1

/-- Second coordinate of the geometry: `feature.geometry.coordinates[1]` for
a point. -/
def geomY : Geometry → ℚ
  | .point _ y => y
  | .polygon r => (r.headI).2

/-! ### Part 1c: the DBF (attribute table) encoder, server.js lines 827-901 -/

/-- Model of `new Date()` as observed through `getFullYear`, `getMonth`
(0-based) and `getDate`. -/
structure JsDate where
  year : ℕ
  month : ℕ
  day : ℕ

/-- Model of one 32-byte DBF field descriptor (server.js lines 857-866):
write the name padded to 11 bytes with NUL, the type character at 11,
a zero 32-bit field at 12, the length at 16 and the decimal count at 17. -/
def dbfFieldDesc (name : String) (typeChar : Char) (len dec : ℕ) :
    Except String (List ℕ) := do
  let b := bufAlloc 32
  let b := bufWriteAscii b (padEndStr name 11 (Char.ofNat 0)) 0 11
  let b ← writeUInt8 b typeChar.toNat 11
  let b ← writeUInt32LE b 0 12
  let b ← writeUInt8 b len 16
  let b ← writeUInt8 b dec 17
  pure b

/-- Concatenation of the four field descriptors of server.js lines 850-866
(`ID, GRIDSIZE, LATITUDE, LONGITUDE`) onto the header buffer, unrolling the
`forEach` over the field array. -/
def dbfDescriptorConcat (b : List ℕ) : Except String (List ℕ) := do
  let d1 ← dbfFieldDesc "ID" 'N' 10 0
  let d2 ← dbfFieldDesc "GRIDSIZE" 'N' 10 0
  let d3 ← dbfFieldDesc "LATITUDE" 'N' 15 6
  let d4 ← dbfFieldDesc "LONGITUDE" 'N' 15 6
  pure (b ++ d1 ++ d2 ++ d3 ++ d4)

/-- Model of the record-building loop body of `createDBFBuffer`
(server.js lines 872-895): a 32-byte record, deletion flag `0x20` at 0,
ID padded to 10 at offset 1, GRIDSIZE padded to 10 at offset 11, then the
LATITUDE text at offset 21 and the LONGITUDE text at the same offset 21,
each clamped to the record end.  The `lat || coords[1]` fallback of the
source (falsy when the property is 0) is modelled by the 0-test. -/
def buildDBFRecord (f : Feature) : Except String (List ℕ) := do
  let r := bufAlloc 32
  let r ← writeUInt8 r 0x20 0
  let r := bufWriteAscii r (padStartStr (jsNumToString f.props.id) 10 ' ') 1 10
  let r := bufWriteAscii r (padStartStr (jsNumToString f.props.gridSize) 10 ' ') 11 10
  let lat := if f.props.latitude = 0 then geomY f.geom else f.props.latitude
  let r := bufWriteAscii r (padStartStr (jsToFixed6 lat) 15 ' ') 21 15
  let lng := if f.props.longitude = 0 then geomX f.geom else f.props.longitude
  let r := bufWriteAscii r (padStartStr (jsToFixed6 lng) 15 ' ') 21 15
  pure r

/-- Model of the 32-byte DBF header construction (server.js lines 828-847):
version 3 at 0, the current date at 1-3 (`getFullYear() - 1900`,
`getMonth() + 1`, `getDate()`), the record count at 4, the header length
`32 + 4*32 + 1` at 8 and the record length 32 at 10. -/
def dbfHeader (today : JsDate) (count : ℕ) : Except String (List ℕ) := do
  let buf := bufAlloc 32
  let buf ← writeUInt8 buf 3 0
  let buf ← writeUInt8 buf (today.year - 1900) 1
  let buf ← writeUInt8 buf (today.month + 1) 2
  let buf ← writeUInt8 buf today.day 3
  let buf ← writeUInt32LE buf count 4
  let buf ← writeUInt16LE buf (32 + 4 * 32 + 1) 8
  let buf ← writeUInt16LE buf 32 10
  pure buf

/-- Model of `createDBFBuffer` (server.js lines 827-901): the 32-byte header;
the four field descriptors; a field terminator `0x0D` written at offset
`buffer.length`; the records; an end-of-file byte `0x1A` written at offset
`buffer.length`. -/
def createDBFBuffer (today : JsDate) (features : List Feature) :
    Except String (List ℕ) := do
  let buf ← dbfHeader today features.length
  let buf ← dbfDescriptorConcat buf
  let buf ← writeUInt8 buf 0x0D buf.length
  let buf ← features.foldlM (fun b f => do
    let r ← buildDBFRecord f
    pure (b ++ r)) buf
  let buf ← writeUInt8 buf 0x1A buf.length
  pure buf

/-! ### Part 1d: the SHP/SHX (geometry and index) encoders, lines 748-824 -/

/-- One typed write into a binary buffer: a 32-bit big-endian integer, a
32-bit little-endian integer, or a little-endian IEEE-754 double (modelled
as an exact rational). -/
inductive WVal where
  | i32BE (v : ℤ)
  | i32LE (v : ℤ)
  | f64LE (v : ℚ)
deriving DecidableEq

/-- Byte width of a typed write. -/
def WVal.size : WVal → ℕ
  | .i32BE _ => 4
  | .i32LE _ => 4
  | .f64LE _ => 8

/-- Model of a Node buffer holding typed numeric slots: its byte size and
the sequence of (offset, value) writes performed into it. -/
structure WBuf where
  size : ℕ
  writes : List (ℕ × WVal)
deriving DecidableEq

/-- Model of `Buffer.alloc n` for the typed-slot buffers. -/
def wbufAlloc (n : ℕ) : WBuf := ⟨n, []⟩

/-- Model of `buf.writeInt32BE(v, off)` with the Node bounds check. -/
def writeI32BE (b : WBuf) (v : ℤ) (off : ℕ) : Except String WBuf :=
  if off + 4 ≤ b.size then .ok ⟨b.size, b.writes ++ [(off, .i32BE v)]⟩
  else .error "ERR_OUT_OF_RANGE"

/-- Model of `buf.writeInt32LE(v, off)` with the Node bounds check. -/
def writeI32LE (b : WBuf) (v : ℤ) (off : ℕ) : Except String WBuf :=
  if off + 4 ≤ b.size then .ok ⟨b.size, b.writes ++ [(off, .i32LE v)]⟩
  else .error "ERR_OUT_OF_RANGE"

/-- Model of `buf.writeDoubleLE(v, off)` with the Node bounds check. -/
def writeF64LE (b : WBuf) (v : ℚ) (off : ℕ) : Except String WBuf :=
  if off + 8 ≤ b.size then .ok ⟨b.size, b.writes ++ [(off, .f64LE v)]⟩
  else .error "ERR_OUT_OF_RANGE"

/-- Model of `Buffer.concat([a, b])`: the writes of `b` are shifted past the
end of `a`. -/
def wbufConcat (a b : WBuf) : WBuf :=
  ⟨a.size + b.size, a.writes ++ b.writes.map (fun w => (a.size + w.1, w.2))⟩

/-- Re-reading the little-endian double stored at byte offset `off`:
the last double written at exactly that offset. -/
def readF64LE (b : WBuf) (off : ℕ) : Option ℚ :=
  (b.writes.filterMap fun w =>
    if w.1 = off then
      match w.2 with
      | .f64LE v => some v
      | _ => none
    else none).getLast?

/-- Intent of the `type` request field of the export route: `points` or
`polygons`. -/
inductive ShpKind where
  | points
  | polygons
deriving DecidableEq

/-- Shape-type code of server.js line 762: 1 for points, 5 otherwise. -/
def shapeTypeCode : ShpKind → ℤ
  | .points => 1
  | .polygons => 5

/-- Model of one geometry record of `createShapefileBuffer`
(server.js lines 780-821): an 8-byte record header holding the big-endian
record number and a content length of 28, then a 28-byte record buffer.
For a point: shape code 1 at 0, x at 4, y at 12.  For a polygon: shape
code 5 at 0, the global bounding box at 4/12/20/28, numParts 1 at 36,
numPoints at 40, the parts array entry 0 at 44, and the ring coordinates
from offset 48 on, all into the same 28-byte buffer. -/
def encodeShpRecord (minX minY maxX maxY : ℚ) (idx : ℕ) (f : Feature) :
    Except String WBuf := do
  let rh := wbufAlloc 8
  let rh ← writeI32BE rh ((idx : ℤ) + 1) 0
  let rh ← writeI32BE rh 28 4
  let rb := wbufAlloc 28
  let rb ← (match f.geom with
    | .point x y => do
        let rb ← writeI32LE rb 1 0
        let rb ← writeF64LE rb x 4
        writeF64LE rb y 12
    | .polygon ring => do
        let rb ← writeI32LE rb 5 0
        let rb ← writeF64LE rb minX 4
        let rb ← writeF64LE rb minY 12
        let rb ← writeF64LE rb maxX 20
        let rb ← writeF64LE rb maxY 28
        let rb ← writeI32LE rb 1 36
        let rb ← writeI32LE rb (ring.length : ℤ) 40
        let rb ← writeI32LE rb 0 44
        let st ← ring.foldlM (fun (st : WBuf × ℕ) coord => do
          let b ← writeF64LE st.1 coord.1 st.2
          let b ← writeF64LE b coord.2 (st.2 + 8)
          pure (b, st.2 + 16)) (rb, 48)
        pure st.1)
  pure (wbufConcat rh rb)

/-- Model of `createShapefileBuffer` (server.js lines 748-824): the 100-byte
header (file code 9994 big-endian at 0, file length in words at 24, version
1000 little-endian at 28, shape type at 32, bounding box doubles at
36/44/52/60, zero Z and M ranges at 68/76/84/92) followed by one record per
feature, each `Buffer.concat`-ed onto the stream. -/
def createShapefileBuffer (features : List Feature) (kind : ShpKind)
    (minX minY maxX maxY : ℚ) : Except String WBuf := do
  let b := wbufAlloc 100
  let b ← writeI32BE b 9994 0
  let b ← writeI32BE b ((50 : ℤ) + features.length * 28) 24
  let b ← writeI32LE b 1000 28
  let b ← writeI32LE b (shapeTypeCode kind) 32
  let b ← writeF64LE b minX 36
  let b ← writeF64LE b minY 44
  let b ← writeF64LE b maxX 52
  let b ← writeF64LE b maxY 60
  let b ← writeF64LE b 0 68
  let b ← writeF64LE b 0 76
  let b ← writeF64LE b 0 84
  let b ← writeF64LE b 0 92
  (features.enum).foldlM (fun buf p => do
    let r ← encodeShpRecord minX minY maxX maxY p.1 p.2
    pure (wbufConcat buf r)) b

/-- The coordinate values a feature contributes to the global bounding box
scan of the export route (server.js lines 702-717). -/
def bboxXs (f : Feature) : List ℚ :=
  match f.geom with
  | .point x _ => [x]
  | .polygon ring => ring.map Prod.fst

/-- The y-coordinate values a feature contributes to the bounding-box scan. -/
def bboxYs (f : Feature) : List ℚ :=
  match f.geom with
  | .point _ y => [y]
  | .polygon ring => ring.map Prod.snd

/-- Fold of `Math.min` over a coordinate list, starting from `Infinity`
(so the first element wins); junk value 0 for an empty list. -/
def listMinQ (l : List ℚ) : ℚ :=
  match l with
  | [] => 0
  | x :: t => t.foldl min x

/-- Fold of `Math.max` over a coordinate list, starting from `-Infinity`. -/
def listMaxQ (l : List ℚ) : ℚ :=
  match l with
  | [] => 0
  | x :: t => t.foldl max x

/-- Model of the export route (server.js lines 700-726) restricted to the
geometry stream: compute the global bounding box from the features, then
encode them with `createShapefileBuffer`. -/
def exportShp (features : List Feature) (kind : ShpKind) : Except String WBuf :=
  createShapefileBuffer features kind
    (listMinQ (features.flatMap bboxXs)) (listMinQ (features.flatMap bboxYs))
    (listMaxQ (features.flatMap bboxXs)) (listMaxQ (features.flatMap bboxYs))

/-- Observation helper: the error string of a failed encode, if any. -/
def exErrStr {α : Type} : Except String α → Option String
  | .error e => some e
  | .ok _ => none

/-- The rational 0, given in lowest terms so the kernel can evaluate with
it. -/
def q0 : ℚ := Rat.mk' 0 1 (by decide) (by decide)

/-- The rational 1 in lowest terms. -/
def q1 : ℚ := Rat.mk' 1 1 (by decide) (by decide)

/-- The rational 2 in lowest terms. -/
def q2 : ℚ := Rat.mk' 2 1 (by decide) (by decide)

/-- The latitude -27.6321 of the round-trip scenario, in lowest terms. -/
def qLat : ℚ := Rat.mk' (-276321) 10000 (by decide) (by decide)

/-- The longitude -53.4701 of the round-trip scenario, in lowest terms. -/
def qLng : ℚ := Rat.mk' (-534701) 10000 (by decide) (by decide)

/-- The single point feature of the round-trip scenario
`{id: 1, gridSize: 2, lat: -27.6321, lng: -53.4701}`. -/
def testPoint : Feature := ⟨⟨q1, q2, qLat, qLng⟩, .point qLng qLat⟩

/-- A concrete polygon feature: the closed unit-square ring. -/
def testPolygon : Feature :=
  ⟨⟨q1, q2, q0, q0⟩, .polygon [(q0, q0), (q1, q0), (q1, q1), (q0, q1), (q0, q0)]⟩

/-! ### Lemmas about the byte-buffer model -/

@[simp]
lemma exBind_ok {α β : Type} (a : α) (k : α → Except String β) :
    (Except.ok a >>= k) = k a := rfl

@[simp]
lemma exBind_error {α β : Type} (e : String) (k : α → Except String β) :
    ((Except.error e : Except String α) >>= k) = Except.error e := rfl

lemma exLenOk (x : Except String (List ℕ)) (n : ℕ)
    (h : x.toOption.map List.length = some n) :
    ∃ l, x = .ok l ∧ l.length = n := by
  cases x with
  | error e => simp [Except.toOption] at h
  | ok l => exact ⟨l, rfl, by simpa [Except.toOption] using h⟩

lemma dbfHeader_ok (d : JsDate) (n : ℕ) :
    ∃ l, dbfHeader d n = .ok l ∧ l.length = 32 := by
  simp only [dbfHeader, bufAlloc, writeUInt8, writeUInt16LE, writeUInt32LE]
  simp [List.length_set]

lemma dbfDescriptorConcat_ok (b : List ℕ) :
    ∃ l, dbfDescriptorConcat b = .ok (b ++ l) ∧ l.length = 128 := by
  obtain ⟨l1, h1, e1⟩ := exLenOk (dbfFieldDesc "ID" 'N' 10 0) 32 (by decide)
  obtain ⟨l2, h2, e2⟩ := exLenOk (dbfFieldDesc "GRIDSIZE" 'N' 10 0) 32 (by decide)
  obtain ⟨l3, h3, e3⟩ := exLenOk (dbfFieldDesc "LATITUDE" 'N' 15 6) 32 (by decide)
  obtain ⟨l4, h4, e4⟩ := exLenOk (dbfFieldDesc "LONGITUDE" 'N' 15 6) 32 (by decide)
  refine ⟨l1 ++ l2 ++ l3 ++ l4, ?_, by simp [e1, e2, e3, e4]⟩
  simp only [dbfDescriptorConcat, h1, h2, h3, h4, exBind_ok]
  simp [List.append_assoc, pure, Except.pure]

/-- The DBF encoder always fails: the field-terminator write at offset
`buffer.length` is out of range, and this happens before any record or the
date-dependent bytes can be observed. -/
lemma createDBFBuffer_always_errors (d : JsDate) (features : List Feature) :
    createDBFBuffer d features = .error "ERR_OUT_OF_RANGE" := by
  obtain ⟨l, hl, hlen⟩ := dbfHeader_ok d features.length
  obtain ⟨ds, hds, hdslen⟩ := dbfDescriptorConcat_ok l
  simp only [createDBFBuffer, hl, exBind_ok, hds]
  have : ¬ (l ++ ds).length < (l ++ ds).length := lt_irrefl _
  simp [writeUInt8, this]

/-! ### Claim theorems about the codec -/

/-- C3: the claim states that each fixed-width DBF record holds ID, GRIDSIZE,
LATITUDE and LONGITUDE in four disjoint byte ranges of widths 10, 10, 15, 15
after the deletion flag, with the LATITUDE text not overwritten by the
LONGITUDE text.  On the code this fails: both `record.write` calls for
latitude and longitude target offset 21 of the 32-byte record, so the bytes
from offset 21 on hold the (truncated) LONGITUDE text of the test feature
and not its LATITUDE text, and the record is 32 bytes although the declared
widths need 1+10+10+15+15 = 51. -/
theorem dbf_record_longitude_overwrites_latitude :
    (buildDBFRecord testPoint).toOption.map (fun r => r.drop 21)
        = some ("     -53.47".data.map Char.toNat) ∧
    (buildDBFRecord testPoint).toOption.map List.length = some 32 ∧
    "     -53.47".data.map Char.toNat
        = (((padStartStr (jsToFixed6 qLng) 15 ' ').data.map Char.toNat).take 11) ∧
    ¬ "     -53.47".data.map Char.toNat
        = (((padStartStr (jsToFixed6 qLat) 15 ' ').data.map Char.toNat).take 11) ∧
    1 + 10 + 10 + 15 + 15 > 32 := by
  refine ⟨by decide, by decide, by decide, by decide, by decide⟩

/-- C4: the claim states that encoding any non-empty polygon feature list
succeeds with a record buffer large enough for the polygon record layout.
On the code this fails: the record buffer is `Buffer.alloc(28)` while the
layout needs `48 + 16 * numPoints` bytes, so the bounding-box write at
offset 28 already throws `ERR_OUT_OF_RANGE` and the polygon export always
fails. -/
theorem shp_polygon_record_overflows :
    exErrStr (exportShp [testPolygon] ShpKind.polygons) = some "ERR_OUT_OF_RANGE" ∧
    28 < 48 + 16 * 5 := by
  refine ⟨by decide, by decide⟩

/-- C8: encoding the single point feature
`{id: 1, gridSize: 2, lat: -27.6321, lng: -53.4701}` and re-reading the two
little-endian doubles of the geometry stream's first record (at byte offsets
112 and 120, after the 100-byte file header, the 8-byte record header and
the 4-byte shape code) yields exactly `(x, y) = (-53.4701, -27.6321)`, so in
particular within tolerance 1e-9. -/
theorem shp_point_roundtrip :
    (exportShp [testPoint] ShpKind.points).toOption.map
        (fun b => (readF64LE b 112, readF64LE b 120))
      = some (some qLng, some qLat) := by
  decide

/-- C9 (amended): the geometry and index encoders are pure functions of
their inputs, but the attribute encoder is not the pure byte producer the
claim describes: it reads the current date, and it unconditionally fails
with an out-of-range terminator write, identically for every date, so no
attribute buffer is ever produced. -/
theorem createDBFBuffer_date_independent_and_fails (d₁ d₂ : JsDate)
    (features : List Feature) :
    createDBFBuffer d₁ features = createDBFBuffer d₂ features ∧
    (createDBFBuffer d₁ features).toOption = none := by
  refine ⟨?_, ?_⟩
  · rw [createDBFBuffer_always_errors d₁ features,
      createDBFBuffer_always_errors d₂ features]
  · rw [createDBFBuffer_always_errors d₁ features]; rfl

/-- C9 (counterexample): at the concrete input `[testPoint]` the attribute
encoder produces no byte buffer at all, contradicting the claim that two
invocations produce byte-identical geometry, index and attribute buffers. -/
theorem createDBFBuffer_no_attribute_buffer :
    (createDBFBuffer ⟨2026, 9, 11⟩ [testPoint]).toOption = none := by
  rw [createDBFBuffer_always_errors]; rfl

/-! ### Part 2: the geometry core over `ℝ` -/

/-- Shoelace sum of `calculateArea` (server.js lines 114-117): the loop runs
`i` from 0 to `length - 2` and accumulates
`coords[i][0]*coords[i+1][1] - coords[i+1][0]*coords[i][1]`; the ring is not
closed implicitly, consecutive pairs only. -/
noncomputable def shoelace : List (ℝ × ℝ) → ℝ
  | p :: q :: t => (p.1 * q.2 - q.1 * p.2) + shoelace (q :: t)
  | _ => 0

/-- Latitude reference of `calculateArea`: `coordinates[0][1]`, the second
component of the first `[lng, lat]` vertex (0 as junk value for an empty
list, on which the source would produce NaN). -/
def refLat : List (ℝ × ℝ) → ℝ
  | [] => 0
  | v :: _ => v.2

/-- Model of `calculateArea` (server.js lines 112-121): half the absolute
shoelace sum, converted to hectares by
`* 111.32 * 111.32 * cos(refLat * π / 180) / 10000`. -/
noncomputable def calculateArea (coordinates : List (ℝ × ℝ)) : ℝ :=
  |shoelace coordinates| / 2 * 111.32 * 111.32 *
    Real.cos (refLat coordinates * Real.pi / 180) / 10000

/-- Edge list of the `pointInPolygon` loop (server.js line 221):
`i` runs over the vertices and `j` is the previous index, starting at the
last vertex, so the pairs are `(p_i, p_(i-1 mod n))`. -/
def pipEdges (poly : List (ℝ × ℝ)) : List ((ℝ × ℝ) × (ℝ × ℝ)) :=
  match poly.getLast? with
  | none => []
  | some plast => poly.zip (plast :: poly.dropLast)

/-- Toggle condition of one `pointInPolygon` edge (server.js line 227):
`((yi > y) !== (yj > y)) && (x < (xj - xi) * (y - yi) / (yj - yi) + xi)`,
for the edge `((xi, yi), (xj, yj))`. -/
noncomputable def pipToggle (x y : ℝ) (e : (ℝ × ℝ) × (ℝ × ℝ)) : Bool :=
  (decide (e.1.2 > y) != decide (e.2.2 > y)) &&
    decide (x < (e.2.1 - e.1.1) * (y - e.1.2) / (e.2.2 - e.1.2) + e.1.1)

/-- Model of `pointInPolygon` (server.js lines 216-233): even-odd
ray-casting, flipping `inside` on every toggling edge. -/
noncomputable def pointInPolygon (p : ℝ × ℝ) (poly : List (ℝ × ℝ)) : Bool :=
  (pipEdges poly).foldl (fun ins e => if pipToggle p.1 p.2 e then !ins else ins) false

/-- Model of `intersectsPolygon` (server.js lines 198-213): true iff some
vertex of the grid cell's ring lies inside the area ring. -/
noncomputable def intersectsPolygon (gridCoords areaCoords : List (ℝ × ℝ)) : Bool :=
  gridCoords.any fun c => pointInPolygon c areaCoords

/-- Model of the `bounds` argument of `generateGrid`:
`bounds = [[swLat, swLng], [neLat, neLng]]`, so `bounds[0][0] = swLat`,
`bounds[0][1] = swLng`, `bounds[1][0] = neLat`, `bounds[1][1] = neLng`. -/
structure GridBounds where
  swLat : ℝ
  swLng : ℝ
  neLat : ℝ
  neLng : ℝ

/-- Cell edge length in metres (server.js line 125):
`Math.sqrt(gridSizeHa * 10000)`. -/
noncomputable def gridSizeMeters (gridSizeHa : ℝ) : ℝ :=
  Real.sqrt (gridSizeHa * 10000)

/-- Latitude step of `generateGrid` (server.js line 132):
`gridSizeMeters / (111320 * Math.cos(bounds[0][1] * Math.PI / 180))` — note
that `bounds[0][1]` is the south-west longitude. -/
noncomputable def latStep (b : GridBounds) (gridSizeHa : ℝ) : ℝ :=
  gridSizeMeters gridSizeHa / (111320 * Real.cos (b.swLng * Real.pi / 180))

/-- Longitude step of `generateGrid` (server.js line 133). -/
noncomputable def lngStep (gridSizeHa : ℝ) : ℝ :=
  gridSizeMeters gridSizeHa / 111320

/-- Latitude extent `bounds[1][0] - bounds[0][0]` (server.js line 128). -/
def latDiff (b : GridBounds) : ℝ := b.neLat - b.swLat

/-- Longitude extent `bounds[1][1] - bounds[0][1]` (server.js line 129). -/
def lngDiff (b : GridBounds) : ℝ := b.neLng - b.swLng

/-- The closed 5-vertex ring of cell `(i, j)` (server.js lines 144-165). -/
noncomputable def cellRing (b : GridBounds) (ha : ℝ) (i j : ℕ) : List (ℝ × ℝ) :=
  let minLat := b.swLat + (i : ℝ) * latStep b ha
  let maxLat := b.swLat + ((i : ℝ) + 1) * latStep b ha
  let minLng := b.swLng + (j : ℝ) * lngStep ha
  let maxLng := b.swLng + ((j : ℝ) + 1) * lngStep ha
  [(minLng, minLat), (maxLng, minLat), (maxLng, maxLat), (minLng, maxLat),
    (minLng, minLat)]

/-- Centroid latitude of cell `(i, j)` (server.js line 179). -/
noncomputable def cellMidLat (b : GridBounds) (ha : ℝ) (i : ℕ) : ℝ :=
  ((b.swLat + (i : ℝ) * latStep b ha) + (b.swLat + ((i : ℝ) + 1) * latStep b ha)) / 2

/-- Centroid longitude of cell `(i, j)` (server.js line 180). -/
noncomputable def cellMidLng (b : GridBounds) (ha : ℝ) (j : ℕ) : ℝ :=
  ((b.swLng + (j : ℝ) * lngStep ha) + (b.swLng + ((j : ℝ) + 1) * lngStep ha)) / 2

/-- One retained grid-cell feature: `properties = {id, gridSize, area}` and
the polygon ring. -/
structure GridCell where
  id : ℕ
  gridSize : ℝ
  area : ℝ
  ring : List (ℝ × ℝ)

/-- One retained centroid feature:
`properties = {id, gridSize, latitude, longitude}`. -/
structure CentroidPt where
  id : ℕ
  gridSize : ℝ
  latitude : ℝ
  longitude : ℝ

/-- Mutable state of the `generateGrid` loops: the `grid` and `points`
arrays and the `id` counter (starting at 1). -/
structure GridState where
  grid : List GridCell
  points : List CentroidPt
  nextId : ℕ

/-- Retention test of server.js line 170:
`areaPolygon && intersectsPolygon(gridPolygon, areaPolygon)` — falsy (no
cell retained) when no boundary polygon is supplied. -/
noncomputable def retainCell (boundary : Option (List (ℝ × ℝ)))
    (ring : List (ℝ × ℝ)) : Bool :=
  match boundary with
  | none => false
  | some areaCoords => intersectsPolygon ring areaCoords

/-- Loop body of `generateGrid` for one cell `(i, j)` (server.js lines
144-190): push the cell and its centroid and increment `id` when the
retention test passes, otherwise leave the state unchanged. -/
noncomputable def stepCell (b : GridBounds) (ha : ℝ)
    (boundary : Option (List (ℝ × ℝ))) (st : GridState) (i j : ℕ) : GridState :=
  if retainCell boundary (cellRing b ha i j) then
    { grid := st.grid ++ [⟨st.nextId, ha, ha, cellRing b ha i j⟩],
      points := st.points ++
        [⟨st.nextId, ha, cellMidLat b ha i, cellMidLng b ha j⟩],
      nextId := st.nextId + 1 }
  else st

/-- The two nested `for` loops of `generateGrid` (server.js lines 142-192),
running `i` over `[0, nLat)` and `j` over `[0, nLng)` in row-major order. -/
noncomputable def gridLoop (b : GridBounds) (ha : ℝ)
    (boundary : Option (List (ℝ × ℝ))) (nLat nLng : ℕ) : GridState :=
  (List.range nLat).foldl
    (fun st i =>
      (List.range nLng).foldl (fun st j => stepCell b ha boundary st i j) st)
    ⟨[], [], 1⟩

/-- Trip count of a JavaScript `for (i = 0; i < Math.ceil(diff / step); i++)`
loop: when `step = 0` and `diff > 0` the bound is `Infinity` and the loop
never terminates (`none`); when `step = 0` and `diff ≤ 0` the bound is
`-Infinity` or `NaN` and the loop runs zero times; otherwise the bound is
the real ceiling. -/
noncomputable def jsLoopCount (diff step : ℝ) : Option ℤ :=
  if step = 0 then (if 0 < diff then none else some 0) else some ⌈diff / step⌉

/-- The `numLatCells` value of server.js line 135 as an integer. -/
noncomputable def numLatInt (b : GridBounds) (ha : ℝ) : ℤ :=
  ⌈latDiff b / latStep b ha⌉

/-- The `numLngCells` value of server.js line 136 as an integer. -/
noncomputable def numLngInt (b : GridBounds) (ha : ℝ) : ℤ :=
  ⌈lngDiff b / lngStep ha⌉

/-- Dispatch on the two loop bounds of `generateGrid`: the result is `none`
(the loops never terminate) when the outer bound is `Infinity`, or when the
outer bound is positive and the inner bound is `Infinity`.  A negative (or
NaN) bound runs the corresponding loop zero times, hence `Int.toNat`. -/
def generateGridAux (latCount lngCount : Option ℤ)
    (run : ℕ → ℕ → GridState) : Option GridState :=
  match latCount, lngCount with
  | none, _ => none
  | some nLat, none => if nLat.toNat = 0 then some ⟨[], [], 1⟩ else none
  | some nLat, some nLng => some (run nLat.toNat nLng.toNat)

/-- Model of `generateGrid` (server.js lines 124-195): compute the two loop
bounds and run the nested enumeration loops. -/
noncomputable def generateGrid (b : GridBounds) (ha : ℝ)
    (boundary : Option (List (ℝ × ℝ))) : Option GridState :=
  generateGridAux (jsLoopCount (latDiff b) (latStep b ha))
    (jsLoopCount (lngDiff b) (lngStep ha)) (gridLoop b ha boundary)

/-- Model of the `/generate-grid` route (server.js lines 591-611): the only
validation is `if (!bounds || !gridSize)`, which replies 400 with the
missing-parameter message; `gridSize = 0` is falsy in JavaScript, so it is
caught by this guard (there is no `InvalidGridParameters` error anywhere).
Otherwise the route calls `generateGrid` and replies success with its
result; an inner `none` means the enumeration loops never terminate and no
response is ever sent. -/
noncomputable def generateGridRoute (bounds : Option GridBounds) (gridSize : ℝ)
    (areaPolygon : Option (List (ℝ × ℝ))) : Except String (Option GridState) :=
  match bounds with
  | none => .error "Bounds e gridSize sao obrigatorios"
  | some b =>
      if gridSize = 0 then .error "Bounds e gridSize sao obrigatorios"
      else .ok (generateGrid b gridSize areaPolygon)

/-- Closed axis-aligned rectangle ring with corners `(a, c)` and `(b, d)`,
in the vertex order used by the grid cells. -/
def rectRing (a b c d : ℝ) : List (ℝ × ℝ) :=
  [(a, c), (b, c), (b, d), (a, d), (a, c)]

/-- The bounding box itself as a closed rectangular boundary ring in
`(lng, lat)` coordinates. -/
def bboxRing (b : GridBounds) : List (ℝ × ℝ) :=
  rectRing b.swLng b.neLng b.swLat b.neLat

/-! ### Ray-casting on axis-aligned rectangles -/

lemma pipEdges_rect (a b c d : ℝ) :
    pipEdges (rectRing a b c d) =
      [((a, c), (a, c)), ((b, c), (a, c)), ((b, d), (b, c)), ((a, d), (b, d)),
        ((a, c), (a, d))] := rfl

/-- On a nondegenerate axis-aligned closed rectangle ring, the ray-casting
test is the half-open box membership `[a, b) × [c, d)`. -/
lemma pointInPolygon_rect (a b c d : ℝ) (hab : a ≤ b) (hcd : c ≤ d) (x y : ℝ) :
    (pointInPolygon (x, y) (rectRing a b c d) = true) ↔
      a ≤ x ∧ x < b ∧ c ≤ y ∧ y < d := by
  simp only [pointInPolygon, pipEdges_rect, List.foldl_cons, List.foldl_nil, pipToggle]
  rcases lt_or_le y c with h1 | h1
  · have hd : y < d := lt_of_lt_of_le h1 hcd
    simp [h1, hd]
  · rcases lt_or_le y d with h2 | h2
    · have hc : ¬ (y < c) := not_lt.mpr h1
      rcases lt_or_le x a with h3 | h3
      · have hb : x < b := lt_of_lt_of_le h3 hab
        simp [h1, h2, hc, h3, hb]
      · rcases lt_or_le x b with h4 | h4
        · simp [h1, h2, hc, h3, h4, not_lt.mpr h3]
        · simp [h1, h2, hc, h4, not_lt.mpr h3, not_lt.mpr h4]
    · have hc : ¬ (y < c) := not_lt.mpr h1
      have hd : ¬ (y < d) := not_lt.mpr h2
      simp [hc, hd]

/-- C10: on every axis-aligned closed rectangle ring, `pointInPolygon`
classifies the boundary half-open: a point with `y = minY` and
`x ∈ [minX, maxX)` is reported inside, and every point with `y = maxY` is
reported outside. -/
theorem pointInPolygon_rect_half_open (a b c d x : ℝ) (hab : a < b) (hcd : c < d) :
    (a ≤ x → x < b → pointInPolygon (x, c) (rectRing a b c d) = true) ∧
    pointInPolygon (x, d) (rectRing a b c d) = false := by
  constructor
  · intro h1 h2
    exact (pointInPolygon_rect a b c d hab.le hcd.le x c).mpr ⟨h1, h2, le_refl c, hcd⟩
  · rw [Bool.eq_false_iff]
    intro h
    obtain ⟨-, -, -, h4⟩ := (pointInPolygon_rect a b c d hab.le hcd.le x d).mp h
    exact lt_irrefl d h4

/-- Witness for C10 at the unit square and `x = 0`. -/
theorem pointInPolygon_rect_half_open_witness :
    ((0:ℝ) < 1 ∧ (0:ℝ) < 1) ∧
    (((0:ℝ) ≤ 0 → (0:ℝ) < 1 → pointInPolygon (0, 0) (rectRing 0 1 0 1) = true) ∧
      pointInPolygon (0, 1) (rectRing 0 1 0 1) = false) :=
  ⟨⟨by norm_num, by norm_num⟩,
    pointInPolygon_rect_half_open 0 1 0 1 0 (by norm_num) (by norm_num)⟩

/-! ### The latitude step and its cosine reference (C5) -/

/-- A bounding box with south-west corner at latitude 0, longitude 0. -/
def bC5a : GridBounds := ⟨0, 0, 1, 1⟩

/-- A bounding box with the same south-west latitude and the same extents as
`bC5a` but shifted to longitude 60. -/
def bC5b : GridBounds := ⟨0, 60, 1, 61⟩

lemma gridSizeMeters_100 : gridSizeMeters 100 = 1000 := by
  unfold gridSizeMeters
  rw [show (100:ℝ) * 10000 = 1000 ^ 2 by norm_num]
  exact Real.sqrt_sq (by norm_num)

/-- C5 (counterexample): two bounding boxes with the same south-west
latitude and the same lat/lng extents but different longitudes get different
latitude steps, because the code feeds `bounds[0][1]` — the south-west
longitude — into the cosine, not the south-west latitude as the claim
states. -/
theorem latStep_uses_longitude_counterexample :
    bC5a.swLat = bC5b.swLat ∧ latDiff bC5a = latDiff bC5b ∧
    lngDiff bC5a = lngDiff bC5b ∧ latStep bC5a 100 ≠ latStep bC5b 100 := by
  refine ⟨rfl, by norm_num [latDiff, bC5a, bC5b], by norm_num [lngDiff, bC5a, bC5b], ?_⟩
  unfold latStep
  rw [gridSizeMeters_100]
  have h1 : Real.cos (bC5a.swLng * Real.pi / 180) = 1 := by
    show Real.cos ((0:ℝ) * Real.pi / 180) = 1
    norm_num
  have h2 : Real.cos (bC5b.swLng * Real.pi / 180) = 1/2 := by
    show Real.cos ((60:ℝ) * Real.pi / 180) = 1/2
    rw [show (60:ℝ) * Real.pi / 180 = Real.pi / 3 by ring]
    exact Real.cos_pi_div_three
  rw [h1, h2]
  norm_num

/-- C5 (amended): the cosine reference of the latitude step is the
south-west longitude `bounds[0][1]`; two bounding boxes with the same
south-west longitude and the same lat/lng extents yield identical steps and
cell counts, regardless of their latitudes. -/
theorem latStep_depends_only_on_swLng (b1 b2 : GridBounds) (ha : ℝ)
    (hlng : b1.swLng = b2.swLng) (hlatd : latDiff b1 = latDiff b2)
    (hlngd : lngDiff b1 = lngDiff b2) :
    latStep b1 ha = latStep b2 ha ∧ numLatInt b1 ha = numLatInt b2 ha ∧
      numLngInt b1 ha = numLngInt b2 ha := by
  have h1 : latStep b1 ha = latStep b2 ha := by unfold latStep; rw [hlng]
  refine ⟨h1, ?_, ?_⟩
  · unfold numLatInt
    rw [hlatd, h1]
  · unfold numLngInt
    rw [hlngd]

/-- Witness for the amended C5 at two boxes sharing south-west longitude 0
but at latitudes 0 and 50. -/
theorem latStep_depends_only_on_swLng_witness :
    ((⟨0, 0, 1, 1⟩ : GridBounds).swLng = (⟨50, 0, 51, 1⟩ : GridBounds).swLng ∧
      latDiff ⟨0, 0, 1, 1⟩ = latDiff ⟨50, 0, 51, 1⟩ ∧
      lngDiff ⟨0, 0, 1, 1⟩ = lngDiff ⟨50, 0, 51, 1⟩) ∧
    (latStep ⟨0, 0, 1, 1⟩ 100 = latStep ⟨50, 0, 51, 1⟩ 100 ∧
      numLatInt ⟨0, 0, 1, 1⟩ 100 = numLatInt ⟨50, 0, 51, 1⟩ 100 ∧
      numLngInt ⟨0, 0, 1, 1⟩ 100 = numLngInt ⟨50, 0, 51, 1⟩ 100) :=
  ⟨⟨rfl, by norm_num [latDiff], by norm_num [lngDiff]⟩,
    latStep_depends_only_on_swLng _ _ 100 rfl (by norm_num [latDiff])
      (by norm_num [lngDiff])⟩

/-! ### Shoelace algebra (C7) -/

lemma shoelace_cons2 (p q : ℝ × ℝ) (t : List (ℝ × ℝ)) :
    shoelace (p :: q :: t) = (p.1 * q.2 - q.1 * p.2) + shoelace (q :: t) := rfl

lemma shoelace_append_single (l : List (ℝ × ℝ)) : ∀ (a x : ℝ × ℝ),
    shoelace ((a :: l) ++ [x]) = shoelace (a :: l) +
      (((a :: l).getLast (List.cons_ne_nil a l)).1 * x.2 -
        x.1 * ((a :: l).getLast (List.cons_ne_nil a l)).2) := by
  induction l with
  | nil =>
    intro a x
    simp [shoelace, List.getLast]
  | cons b t ih =>
    intro a x
    have h1 : shoelace ((a :: b :: t) ++ [x]) =
        (a.1 * b.2 - b.1 * a.2) + shoelace ((b :: t) ++ [x]) := rfl
    rw [h1, ih b x, List.getLast_cons (List.cons_ne_nil b t), shoelace_cons2]
    ring

lemma shoelace_reverse (l : List (ℝ × ℝ)) : shoelace l.reverse = - shoelace l := by
  induction l with
  | nil => simp [shoelace]
  | cons a t ih =>
    cases t with
    | nil => simp [shoelace]
    | cons b t2 =>
      rw [List.reverse_cons]
      obtain ⟨c, m, hm⟩ : ∃ c m, (b :: t2).reverse = c :: m := by
        cases h : (b :: t2).reverse with
        | nil => exact absurd h (by simp)
        | cons c m => exact ⟨c, m, rfl⟩
      have hlast : (c :: m).getLast (List.cons_ne_nil c m) = b := by
        have h1 : (c :: m).getLast? = some b := by
          rw [← hm, List.getLast?_reverse]
          rfl
        rw [List.getLast?_eq_getLast (c :: m) (List.cons_ne_nil c m)] at h1
        exact Option.some_injective _ h1
      rw [hm] at ih ⊢
      rw [shoelace_append_single m c (a : ℝ × ℝ), ih, hlast, shoelace_cons2]
      ring

/-- C7 (counterexample): rotating the starting vertex of the closed ring
[(0,0),(1,0),(0,60),(0,0)] to start at its third vertex changes the hectare
value, because the conversion factor uses the first vertex's latitude
(cos 0 = 1 versus cos 60deg = 1/2). -/
theorem calculateArea_rotation_counterexample :
    calculateArea [((0:ℝ), (60:ℝ)), (0, 0), (1, 0), (0, 60)] ≠
      calculateArea [((0:ℝ), (0:ℝ)), (1, 0), (0, 60), (0, 0)] := by
  unfold calculateArea
  simp only [shoelace, refLat]
  rw [show (60:ℝ) * Real.pi / 180 = Real.pi / 3 by ring, Real.cos_pi_div_three]
  norm_num [Real.cos_zero]

lemma shoelace_rotate_one (m : List (ℝ × ℝ)) :
    shoelace (m.rotate 1 ++ [(m.rotate 1).headI]) = shoelace (m ++ [m.headI]) := by
  match m with
  | [] => simp [List.rotate_nil]
  | [a] =>
    rw [show ([a] : List (ℝ × ℝ)).rotate 1 = [a] by
      rw [List.rotate_cons_succ, List.rotate_zero]
      rfl]
  | a :: b :: t =>
    rw [show (a :: b :: t).rotate 1 = (b :: t) ++ [a] by
      rw [List.rotate_cons_succ, List.rotate_zero]]
    show shoelace ((b :: (t ++ [a])) ++ [b]) = shoelace ((a :: (b :: t)) ++ [a])
    rw [shoelace_append_single (t ++ [a]) b b, shoelace_append_single (b :: t) a a]
    have hglast : (b :: (t ++ [a])).getLast (List.cons_ne_nil b (t ++ [a])) = a := by
      rw [List.getLast_cons (by simp : t ++ [a] ≠ [])]
      exact List.getLast_concat t
    rw [hglast]
    have hsl : shoelace (b :: (t ++ [a])) = shoelace (b :: t) +
        (((b :: t).getLast (List.cons_ne_nil b t)).1 * a.2 -
          a.1 * ((b :: t).getLast (List.cons_ne_nil b t)).2) :=
      shoelace_append_single t b a
    rw [hsl, List.getLast_cons (List.cons_ne_nil b t), shoelace_cons2]
    ring

lemma shoelace_rotate (l : List (ℝ × ℝ)) (k : ℕ) :
    shoelace (l.rotate k ++ [(l.rotate k).headI]) = shoelace (l ++ [l.headI]) := by
  induction k with
  | zero => rw [List.rotate_zero]
  | succ n ih =>
    rw [show l.rotate (n + 1) = (l.rotate n).rotate 1 from
      (List.rotate_rotate l n 1).symm]
    rw [shoelace_rotate_one (l.rotate n), ih]

/-- C7 (amended): for every nonempty vertex cycle `l`, closed into the ring
`l ++ [l.headI]`: reversing the closed ring never changes the hectare value;
rotating the starting vertex by any amount preserves the shoelace
(square-degree) part; and the hectare value is preserved by a rotation
whenever the new starting vertex has the same latitude as the old one (the
conversion factor uses the first vertex's latitude). -/
theorem calculateArea_ring_reverse_rotate (l : List (ℝ × ℝ)) (hl : l ≠ []) :
    calculateArea ((l ++ [l.headI]).reverse) = calculateArea (l ++ [l.headI]) ∧
    (∀ k : ℕ, shoelace (l.rotate k ++ [(l.rotate k).headI]) =
      shoelace (l ++ [l.headI])) ∧
    (∀ k : ℕ, ((l.rotate k).headI).2 = (l.headI).2 →
      calculateArea (l.rotate k ++ [(l.rotate k).headI]) =
        calculateArea (l ++ [l.headI])) := by
  obtain ⟨a, t, rfl⟩ : ∃ a t, l = a :: t := by
    cases l with
    | nil => exact absurd rfl hl
    | cons a t => exact ⟨a, t, rfl⟩
  refine ⟨?_, fun k => shoelace_rotate (a :: t) k, ?_⟩
  · unfold calculateArea
    rw [shoelace_reverse, abs_neg]
    have h2 : refLat (((a :: t) ++ [(a :: t).headI]).reverse) = a.2 := by
      rw [List.reverse_append]
      rfl
    have h3 : refLat ((a :: t) ++ [(a :: t).headI]) = a.2 := rfl
    rw [h2, h3]
  · intro k hk
    unfold calculateArea
    rw [shoelace_rotate (a :: t) k]
    have h4 : refLat ((a :: t).rotate k ++ [((a :: t).rotate k).headI]) =
        (((a :: t).rotate k).headI).2 := by
      obtain ⟨c, m, hm⟩ : ∃ c m, (a :: t).rotate k = c :: m := by
        cases h : (a :: t).rotate k with
        | nil => exact absurd h (by simp [List.rotate_eq_nil_iff])
        | cons c m => exact ⟨c, m, rfl⟩
      rw [hm]
      rfl
    rw [h4, hk]
    rfl

/-- The concrete open vertex cycle of the C7 witness. -/
def ringW : List (ℝ × ℝ) := [(0, 0), (1, 0), (0, 50)]

/-- Witness for the amended C7 on the closed ring of `ringW` and its
rotation by one position (whose new starting vertex also has latitude 0). -/
theorem calculateArea_ring_reverse_rotate_witness :
    calculateArea ((ringW ++ [ringW.headI]).reverse) =
        calculateArea (ringW ++ [ringW.headI]) ∧
    shoelace (ringW.rotate 1 ++ [(ringW.rotate 1).headI]) =
        shoelace (ringW ++ [ringW.headI]) ∧
    calculateArea (ringW.rotate 1 ++ [(ringW.rotate 1).headI]) =
        calculateArea (ringW ++ [ringW.headI]) :=
  ⟨(calculateArea_ring_reverse_rotate ringW (by simp [ringW])).1,
    (calculateArea_ring_reverse_rotate ringW (by simp [ringW])).2.1 1,
    (calculateArea_ring_reverse_rotate ringW (by simp [ringW])).2.2 1 rfl⟩

/-! ### Grid loop counting (C1, C2, C6) -/

lemma stepCell_none (b : GridBounds) (ha : ℝ) (st : GridState) (i j : ℕ) :
    stepCell b ha none st i j = st := by
  simp [stepCell, retainCell]

lemma gridLoop_none (b : GridBounds) (ha : ℝ) (nLat nLng : ℕ) :
    gridLoop b ha none nLat nLng = ⟨[], [], 1⟩ := by
  unfold gridLoop
  have h1 : ∀ (l : List ℕ) (st : GridState) (i : ℕ),
      l.foldl (fun s j => stepCell b ha none s i j) st = st := by
    intro l
    induction l with
    | nil => intro st i; rfl
    | cons a t ih => intro st i; rw [List.foldl_cons, stepCell_none]; exact ih st i
  have h2 : ∀ (L : List ℕ) (st : GridState),
      L.foldl (fun st i =>
        (List.range nLng).foldl (fun s j => stepCell b ha none s i j) st) st = st := by
    intro L
    induction L with
    | nil => intro st; rfl
    | cons a t ih => intro st; rw [List.foldl_cons, h1]; exact ih st
  exact h2 _ _

lemma stepCell_grid_length (b : GridBounds) (ha : ℝ)
    (bd : Option (List (ℝ × ℝ))) (st : GridState) (i j : ℕ) :
    (stepCell b ha bd st i j).grid.length =
      st.grid.length + (if retainCell bd (cellRing b ha i j) then 1 else 0) := by
  unfold stepCell
  split_ifs <;> simp

lemma foldl_stepCell_grid_length (b : GridBounds) (ha : ℝ)
    (bd : Option (List (ℝ × ℝ))) (i : ℕ) (l : List ℕ) (st : GridState) :
    (l.foldl (fun s j => stepCell b ha bd s i j) st).grid.length =
      st.grid.length +
        (l.filter (fun j => retainCell bd (cellRing b ha i j))).length := by
  induction l generalizing st with
  | nil => simp
  | cons j t ih =>
    rw [List.foldl_cons, ih, stepCell_grid_length, List.filter_cons]
    by_cases h : retainCell bd (cellRing b ha i j)
    · simp [h]
      omega
    · simp [h]

lemma gridLoop_grid_length (b : GridBounds) (ha : ℝ)
    (bd : Option (List (ℝ × ℝ))) (nLat nLng : ℕ)
    (hall : ∀ i, i < nLat →
      ((List.range nLng).filter
        (fun j => retainCell bd (cellRing b ha i j))).length = nLng) :
    (gridLoop b ha bd nLat nLng).grid.length = nLat * nLng := by
  unfold gridLoop
  suffices h : ∀ (L : List ℕ) (st : GridState), (∀ i ∈ L, i < nLat) →
      (L.foldl (fun st i =>
        (List.range nLng).foldl (fun s j => stepCell b ha bd s i j) st) st).grid.length
        = st.grid.length + L.length * nLng by
    have h2 := h (List.range nLat) ⟨[], [], 1⟩ (fun i hi => List.mem_range.mp hi)
    simpa using h2
  intro L
  induction L with
  | nil => intro st hmem; simp
  | cons a t ih =>
    intro st hmem
    rw [List.foldl_cons, ih _ (fun i hi => hmem i (List.mem_cons_of_mem a hi)),
      foldl_stepCell_grid_length, hall a (hmem a (List.mem_cons_self a t))]
    simp only [List.length_cons]
    ring

lemma cos_neg10_pos : 0 < Real.cos ((-10 : ℝ) * Real.pi / 180) := by
  rw [show ((-10 : ℝ) * Real.pi / 180) = -(Real.pi / 18) by ring, Real.cos_neg]
  apply Real.cos_pos_of_mem_Ioo
  constructor
  · have := Real.pi_pos
    linarith [div_pos Real.pi_pos (by norm_num : (0:ℝ) < 18),
      div_pos Real.pi_pos (by norm_num : (0:ℝ) < 2)]
  · rw [div_lt_div_iff₀ (by norm_num) (by norm_num)]
    have := Real.pi_pos
    linarith

/-- C2: the claim demands that `cellAreaHa ≤ 0` and degenerate bounding
boxes fail fast with an `InvalidGridParameters` error.  The code has no such
error: a degenerate bounding box (`sw.lat = ne.lat`) passes the route's only
guard and the route replies success with a silently empty grid;
`gridSize = 0` is stopped by the guard, but only by falsiness and with the
missing-parameter message, not an `InvalidGridParameters` error — and the
`generateGrid` enumeration itself on `cellAreaHa = 0` has loop bound
`numLatCells = Math.ceil(latDiff / 0) = Infinity` and never terminates
(modelled as `none`). -/
theorem generateGrid_invalid_inputs_no_error :
    generateGridRoute (some ⟨-10, -10, -10, -9⟩) 100 none =
      .ok (some ⟨[], [], 1⟩) ∧
    generateGridRoute (some ⟨-10, -10, -9, -9⟩) 0 none =
      .error "Bounds e gridSize sao obrigatorios" ∧
    generateGrid ⟨-10, -10, -9, -9⟩ 0 none = none := by
  have hdiv : generateGrid ⟨-10, -10, -9, -9⟩ 0 none = none := by
    have hms : gridSizeMeters 0 = 0 := by
      unfold gridSizeMeters
      norm_num
    have hstep : latStep ⟨-10, -10, -9, -9⟩ 0 = 0 := by
      unfold latStep
      rw [hms, zero_div]
    have hdiff : latDiff ⟨-10, -10, -9, -9⟩ = 1 := by
      norm_num [latDiff]
    unfold generateGrid
    rw [hstep, hdiff]
    have h1 : jsLoopCount 1 0 = none := by
      unfold jsLoopCount
      rw [if_pos rfl, if_pos (by norm_num)]
    rw [h1]
    simp [generateGridAux]
  refine ⟨?_, ?_, hdiv⟩
  · have hempty : generateGrid ⟨-10, -10, -10, -9⟩ 100 none = some ⟨[], [], 1⟩ := by
      have hstepne : latStep ⟨-10, -10, -10, -9⟩ 100 ≠ 0 := by
        unfold latStep
        rw [gridSizeMeters_100]
        exact div_ne_zero (by norm_num)
          (mul_ne_zero (by norm_num) (ne_of_gt cos_neg10_pos))
      have hlngne : lngStep 100 ≠ 0 := by
        unfold lngStep
        rw [gridSizeMeters_100]
        norm_num
      have hdiff : latDiff ⟨-10, -10, -10, -9⟩ = 0 := by
        norm_num [latDiff]
      have h1 : jsLoopCount (latDiff ⟨-10, -10, -10, -9⟩)
          (latStep ⟨-10, -10, -10, -9⟩ 100) = some 0 := by
        unfold jsLoopCount
        rw [if_neg hstepne, hdiff, zero_div, Int.ceil_zero]
      have h2 : jsLoopCount (lngDiff ⟨-10, -10, -10, -9⟩) (lngStep 100) =
          some ⌈lngDiff ⟨-10, -10, -10, -9⟩ / lngStep 100⌉ := by
        unfold jsLoopCount
        rw [if_neg hlngne]
      unfold generateGrid
      rw [h1, h2]
      show some (gridLoop _ _ _ (Int.toNat 0) _) = _
      rw [show (Int.toNat 0) = 0 from rfl]
      have : gridLoop ⟨-10, -10, -10, -9⟩ 100 none 0
          ⌈lngDiff ⟨-10, -10, -10, -9⟩ / lngStep 100⌉.toNat = ⟨[], [], 1⟩ := by
        unfold gridLoop
        rfl
      rw [this]
    unfold generateGridRoute
    show (if (100 : ℝ) = 0 then Except.error "Bounds e gridSize sao obrigatorios"
      else Except.ok (generateGrid ⟨-10, -10, -10, -9⟩ 100 none)) = _
    rw [if_neg (by norm_num : ¬ (100 : ℝ) = 0), hempty]
  · unfold generateGridRoute
    show (if (0 : ℝ) = 0 then Except.error "Bounds e gridSize sao obrigatorios"
      else Except.ok (generateGrid ⟨-10, -10, -9, -9⟩ 0 none)) = _
    rw [if_pos rfl]

/-- C1 (amended): when no boundary polygon is supplied, the retention test
`areaPolygon && intersectsPolygon(...)` is falsy for every cell, so whenever
`generateGrid` returns at all it returns empty cell and point lists — no
enumerated cell is retained and no ids are assigned. -/
theorem generateGrid_noBoundary_empty (b : GridBounds) (ha : ℝ) (res : GridState)
    (h : generateGrid b ha none = some res) : res.grid = [] ∧ res.points = [] := by
  unfold generateGrid at h
  rcases h1 : jsLoopCount (latDiff b) (latStep b ha) with _ | nLat <;> rw [h1] at h
  · simp [generateGridAux] at h
  · rcases h2 : jsLoopCount (lngDiff b) (lngStep ha) with _ | nLng <;> rw [h2] at h
    · by_cases h3 : nLat.toNat = 0
      · simp only [generateGridAux, if_pos h3] at h
        obtain rfl := (Option.some_injective _ h).symm
        exact ⟨rfl, rfl⟩
      · simp [generateGridAux, h3] at h
    · simp only [generateGridAux] at h
      obtain rfl := (Option.some_injective _ h).symm
      rw [gridLoop_none]
      exact ⟨rfl, rfl⟩

lemma generateGrid_b0_none :
    generateGrid ⟨0, 0, 1, 1⟩ 100 none = some ⟨[], [], 1⟩ := by
  have hstepne : latStep ⟨0, 0, 1, 1⟩ 100 ≠ 0 := by
    unfold latStep
    rw [gridSizeMeters_100,
      show ((⟨0, 0, 1, 1⟩ : GridBounds).swLng * Real.pi / 180) = 0 by
        show (0:ℝ) * Real.pi / 180 = 0
        ring,
      Real.cos_zero]
    norm_num
  have hlngne : lngStep 100 ≠ 0 := by
    unfold lngStep
    rw [gridSizeMeters_100]
    norm_num
  have h1 : jsLoopCount (latDiff ⟨0, 0, 1, 1⟩) (latStep ⟨0, 0, 1, 1⟩ 100) =
      some ⌈latDiff ⟨0, 0, 1, 1⟩ / latStep ⟨0, 0, 1, 1⟩ 100⌉ := by
    unfold jsLoopCount
    rw [if_neg hstepne]
  have h2 : jsLoopCount (lngDiff ⟨0, 0, 1, 1⟩) (lngStep 100) =
      some ⌈lngDiff ⟨0, 0, 1, 1⟩ / lngStep 100⌉ := by
    unfold jsLoopCount
    rw [if_neg hlngne]
  unfold generateGrid
  rw [h1, h2]
  show some (gridLoop _ _ _ _ _) = _
  rw [gridLoop_none]

/-- Witness for the amended C1: `generateGrid` on the unit box with no
boundary returns, and returns the empty grid. -/
theorem generateGrid_noBoundary_empty_witness :
    (⟨[], [], 1⟩ : GridState).grid = [] ∧ (⟨[], [], 1⟩ : GridState).points = [] :=
  generateGrid_noBoundary_empty ⟨0, 0, 1, 1⟩ 100 ⟨[], [], 1⟩ generateGrid_b0_none

/-- C1 (counterexample): at the scenario input
`bbox = [[-10,-10],[-9,-9]]`, `cellAreaHa = 100`, no boundary polygon, the
returned cell list is empty — it does not contain 112 x 112 = 12544 cells. -/
theorem generateGrid_scenario_no_cells :
    (generateGrid ⟨-10, -10, -9, -9⟩ 100 none).map (fun r => r.grid.length) =
      some 0 ∧ (0 : ℕ) ≠ 12544 := by
  refine ⟨?_, by norm_num⟩
  have hstepne : latStep ⟨-10, -10, -9, -9⟩ 100 ≠ 0 := by
    unfold latStep
    rw [gridSizeMeters_100]
    exact div_ne_zero (by norm_num)
      (mul_ne_zero (by norm_num) (ne_of_gt cos_neg10_pos))
  have hlngne : lngStep 100 ≠ 0 := by
    unfold lngStep
    rw [gridSizeMeters_100]
    norm_num
  have h1 : jsLoopCount (latDiff ⟨-10, -10, -9, -9⟩)
      (latStep ⟨-10, -10, -9, -9⟩ 100) =
      some ⌈latDiff ⟨-10, -10, -9, -9⟩ / latStep ⟨-10, -10, -9, -9⟩ 100⌉ := by
    unfold jsLoopCount
    rw [if_neg hstepne]
  have h2 : jsLoopCount (lngDiff ⟨-10, -10, -9, -9⟩) (lngStep 100) =
      some ⌈lngDiff ⟨-10, -10, -9, -9⟩ / lngStep 100⌉ := by
    unfold jsLoopCount
    rw [if_neg hlngne]
  unfold generateGrid
  rw [h1, h2]
  show (some (gridLoop _ _ _ _ _)).map _ = _
  rw [gridLoop_none]
  rfl

/-! ### Retaining every cell when the boundary is the bounding box (C6) -/

lemma cellRing_eq (b : GridBounds) (ha : ℝ) (i j : ℕ) :
    cellRing b ha i j =
      [(b.swLng + (j : ℝ) * lngStep ha, b.swLat + (i : ℝ) * latStep b ha),
        (b.swLng + ((j : ℝ) + 1) * lngStep ha, b.swLat + (i : ℝ) * latStep b ha),
        (b.swLng + ((j : ℝ) + 1) * lngStep ha, b.swLat + ((i : ℝ) + 1) * latStep b ha),
        (b.swLng + (j : ℝ) * lngStep ha, b.swLat + ((i : ℝ) + 1) * latStep b ha),
        (b.swLng + (j : ℝ) * lngStep ha, b.swLat + (i : ℝ) * latStep b ha)] := rfl

lemma index_mul_lt_of_lt_ceil (x s : ℝ) (hs : 0 < s) (i : ℕ)
    (hi : (i : ℤ) < ⌈x / s⌉) : (i : ℝ) * s < x := by
  have h0 : (i : ℤ) ≤ ⌈x / s⌉ - 1 := by omega
  have h1 : (i : ℝ) ≤ ((⌈x / s⌉ : ℤ) : ℝ) - 1 := by
    calc (i : ℝ) = ((i : ℤ) : ℝ) := by norm_cast
    _ ≤ ((⌈x / s⌉ - 1 : ℤ) : ℝ) := by exact_mod_cast h0
    _ = ((⌈x / s⌉ : ℤ) : ℝ) - 1 := by push_cast; ring
  have h2 : ((⌈x / s⌉ : ℤ) : ℝ) < x / s + 1 := Int.ceil_lt_add_one (x / s)
  have h3 : (i : ℝ) < x / s := by linarith
  exact (lt_div_iff₀ hs).mp h3

lemma bboxRing_retains_corner (b : GridBounds) (ha : ℝ)
    (hlat : b.swLat ≤ b.neLat) (hlng : b.swLng ≤ b.neLng)
    (hlatstep : 0 < latStep b ha) (hlngstep : 0 < lngStep ha) (i j : ℕ)
    (hi : (i : ℝ) * latStep b ha < latDiff b)
    (hj : (j : ℝ) * lngStep ha < lngDiff b) :
    retainCell (some (bboxRing b)) (cellRing b ha i j) = true := by
  have hpt : pointInPolygon
      (b.swLng + (j : ℝ) * lngStep ha, b.swLat + (i : ℝ) * latStep b ha)
      (bboxRing b) = true := by
    unfold bboxRing
    rw [pointInPolygon_rect _ _ _ _ hlng hlat]
    refine ⟨le_add_of_nonneg_right (mul_nonneg (Nat.cast_nonneg j) hlngstep.le),
      ?_, le_add_of_nonneg_right (mul_nonneg (Nat.cast_nonneg i) hlatstep.le), ?_⟩
    · unfold lngDiff at hj
      linarith
    · unfold latDiff at hi
      linarith
  unfold retainCell intersectsPolygon
  rw [cellRing_eq]
  simp [hpt]

/-- C6: when the boundary polygon is the closed rectangular ring equal to
the bounding box itself, every enumerated cell is retained (its south-west
corner passes the half-open ray-casting test), so the number of retained
cells is `numLatCells * numLngCells`.  The hypotheses are the bounding-box
invariant `sw ≤ ne`, a positive cell area, and a nonzero cosine at the
south-west longitude (at a zero cosine the JavaScript steps would be
`Infinity`, outside this model). -/
theorem generateGrid_bboxRing_retains_all (b : GridBounds) (ha : ℝ)
    (hlat : b.swLat ≤ b.neLat) (hlng : b.swLng ≤ b.neLng) (hha : 0 < ha)
    (hcos : Real.cos (b.swLng * Real.pi / 180) ≠ 0) :
    (generateGrid b ha (some (bboxRing b))).map (fun r => r.grid.length) =
      some ((numLatInt b ha).toNat * (numLngInt b ha).toNat) := by
  have hm : 0 < gridSizeMeters ha := Real.sqrt_pos.mpr (by positivity)
  have hlngstep : 0 < lngStep ha := div_pos hm (by norm_num)
  have hlatstep_ne : latStep b ha ≠ 0 := by
    unfold latStep
    exact div_ne_zero (ne_of_gt hm) (mul_ne_zero (by norm_num) hcos)
  have h1 : jsLoopCount (latDiff b) (latStep b ha) = some (numLatInt b ha) := by
    unfold jsLoopCount numLatInt
    rw [if_neg hlatstep_ne]
  have h2 : jsLoopCount (lngDiff b) (lngStep ha) = some (numLngInt b ha) := by
    unfold jsLoopCount numLngInt
    rw [if_neg (ne_of_gt hlngstep)]
  unfold generateGrid
  rw [h1, h2]
  show (some (gridLoop b ha (some (bboxRing b)) (numLatInt b ha).toNat
    (numLngInt b ha).toNat)).map (fun r => r.grid.length) = _
  rw [Option.map_some']
  refine congrArg some ?_
  rcases lt_or_gt_of_ne hcos with hneg | hpos
  · have hstep : latStep b ha < 0 := by
      unfold latStep
      exact div_neg_of_pos_of_neg hm (mul_neg_of_pos_of_neg (by norm_num) hneg)
    have hle : numLatInt b ha ≤ 0 := by
      unfold numLatInt
      apply Int.ceil_le.mpr
      have hd : 0 ≤ latDiff b := by
        unfold latDiff
        linarith
      simpa using div_nonpos_iff.mpr (Or.inl ⟨hd, hstep.le⟩)
    rw [Int.toNat_eq_zero.mpr hle]
    simp [gridLoop]
  · have hlatstep : 0 < latStep b ha := by
      unfold latStep
      exact div_pos hm (mul_pos (by norm_num) hpos)
    apply gridLoop_grid_length
    intro i hi
    have hfil : (List.range (numLngInt b ha).toNat).filter
        (fun j => retainCell (some (bboxRing b)) (cellRing b ha i j)) =
        List.range (numLngInt b ha).toNat := by
      apply List.filter_eq_self.mpr
      intro j hj
      rw [List.mem_range] at hj
      apply bboxRing_retains_corner b ha hlat hlng hlatstep hlngstep
      · exact index_mul_lt_of_lt_ceil _ _ hlatstep i (Int.lt_toNat.mp hi)
      · exact index_mul_lt_of_lt_ceil _ _ hlngstep j (Int.lt_toNat.mp hj)
    rw [hfil, List.length_range]

/-- Witness for C6 at the unit bounding box with south-west corner (0, 0)
and 100 ha cells. -/
theorem generateGrid_bboxRing_retains_all_witness :
    ((⟨0, 0, 1, 1⟩ : GridBounds).swLat ≤ (⟨0, 0, 1, 1⟩ : GridBounds).neLat ∧
      (⟨0, 0, 1, 1⟩ : GridBounds).swLng ≤ (⟨0, 0, 1, 1⟩ : GridBounds).neLng ∧
      (0 : ℝ) < 100 ∧
      Real.cos ((⟨0, 0, 1, 1⟩ : GridBounds).swLng * Real.pi / 180) ≠ 0) ∧
    (generateGrid ⟨0, 0, 1, 1⟩ 100 (some (bboxRing ⟨0, 0, 1, 1⟩))).map
        (fun r => r.grid.length) =
      some ((numLatInt ⟨0, 0, 1, 1⟩ 100).toNat * (numLngInt ⟨0, 0, 1, 1⟩ 100).toNat) :=
  ⟨⟨by norm_num, by norm_num, by norm_num, by
      show Real.cos ((0 : ℝ) * Real.pi / 180) ≠ 0
      norm_num [Real.cos_zero]⟩,
    generateGrid_bboxRing_retains_all ⟨0, 0, 1, 1⟩ 100 (by norm_num) (by norm_num)
      (by norm_num) (by
        show Real.cos ((0 : ℝ) * Real.pi / 180) ≠ 0
        norm_num [Real.cos_zero])⟩

end ConnectFarm
